import Mathlib

namespace SmartContract

/-!
Verification of the transaction-orchestration engine in `main.py`:
the bridge adapter-params encoding, fee-estimation fallback, gas-price
gate, transaction lifecycle (estimate → sign → submit → confirm), the
bridge/deploy orchestration, and the fleet loop with its tally and
inter-account pacing.  Each Python function is shallowly embedded as an
executable Lean definition over explicit inputs standing for the chain
responses it observes.
-/

/-! ### Hex encoding of the bridge adapter parameters

`bridge_to_scroll` builds the adapter-params payload as
`HexBytes(part1 + part2 + hex(amount_in_wei)[2:].rjust(13,'0') + address[2:])`.
We embed Python `hex`, `str.rjust` and the `HexBytes` constructor
(which left-pads an odd-length hex string with a single `'0'` before
decoding pairs of hex digits, as in `hexbytes._utils.hexstr_to_bytes`). -/

/-- Lower-case hex digit character for a value `< 16`, as Python `hex` uses. -/
def hexChar (n : Nat) : Char :=
  if n < 10 then Char.ofNat (48 + n) else Char.ofNat (87 + n)

/-- Fuel-driven big-endian digit expansion; fuel `n + 1` suffices for `n`. -/
def hexDigitsAux : Nat → Nat → List Char
  | 0, _ => []
  | fuel + 1, n =>
    if n = 0 then [] else hexDigitsAux fuel (n / 16) ++ [hexChar (n % 16)]

/-- Python `hex(n)[2:]` for a nonnegative `n`: lower-case hex digits, `"0"` for zero. -/
def pyHex (n : Nat) : String :=
  if n = 0 then "0" else String.mk (hexDigitsAux (n + 1) n)

/-- Python `s.rjust(width, '0')`: left-pad with zeros, never truncate. -/
def rjustZero (s : String) (width : Nat) : String :=
  if width ≤ s.length then s
  else String.mk (List.replicate (width - s.length) '0') ++ s

/-- Numeric value of a hex digit character, or `none` for a non-hex character. -/
def hexVal (c : Char) : Option Nat :=
  if 48 ≤ c.toNat ∧ c.toNat ≤ 57 then some (c.toNat - 48)
  else if 97 ≤ c.toNat ∧ c.toNat ≤ 102 then some (c.toNat - 87)
  else if 65 ≤ c.toNat ∧ c.toNat ≤ 70 then some (c.toNat - 55)
  else none

/-- Decode consecutive pairs of hex digits to bytes (`binascii.unhexlify`);
fails on a dangling digit or a non-hex character. -/
def pairBytes : List Char → Option (List Nat)
  | [] => some []
  | [_] => none
  | a :: b :: rest => do
    let hi ← hexVal a
    let lo ← hexVal b
    let tail ← pairBytes rest
    pure ((16 * hi + lo) :: tail)

/-- The `HexBytes` constructor on a non-`0x`-prefixed string: an odd-length
hex string is left-padded with one `'0'`, then decoded pairwise. -/
def hexBytes (s : String) : Option (List Nat) :=
  pairBytes (if s.length % 2 = 1 then '0' :: s.data else s.data)

/-- The fixed prefix of the adapter params: 2-byte type field `0x0002` and
the zero-padded destination gas limit `0x30d40`, verbatim from the source. -/
def adapterPrefix : String :=
  "000200000000000000000000000000000000000000000000000000000000000" ++
  "30d40000000000000000000000000000000000000000000000000000"

/-- The hex string concatenated in `bridge_to_scroll` lines 51–56:
prefix, 13-hex-digit right-justified amount, then the recipient address
without its `0x` prefix. -/
def adapterParamsHexStr (amountWei : Nat) (addressNo0x : String) : String :=
  adapterPrefix ++ rjustZero (pyHex amountWei) 13 ++ addressNo0x

/-- `adapter_params` as constructed in the source: the concatenated hex
string passed through the `HexBytes` constructor. -/
def adapter_params (amountWei : Nat) (addressNo0x : String) : Option (List Nat) :=
  hexBytes (adapterParamsHexStr amountWei addressNo0x)

/-- The recipient address used by the account in the repository's example
transaction (any 40-hex-digit address behaves identically). -/
def sampleAddress : String := "4Ae8CEBcCD7027820ba83188DFD73CCAD0A92806"

/-! ### Fee quotes and the fallback of `bridge_to_scroll` lines 42–47 -/

/-- A fee configuration: either the priority-fee pair merged into the
transaction dict by the suggestion service, or the single legacy
`gasPrice` read from the chain endpoint. -/
inductive FeeQuote
  | eip1559 (maxFeePerGas maxPriorityFeePerGas : Nat)
  | legacy (gasPrice : Nat)
deriving DecidableEq, Repr

/-- Modelled from the spec: `utils.suggest_gas_fees` is not part of the
provided sources; per the spec it queries a fee-suggestion capability and
yields a priority-fee-based quote, or `None` on any failure (unsupported
chain, service error) without raising. -/
def suggest_gas_fees : Option (Nat × Nat) → Option FeeQuote
  | some (maxFee, maxPriority) => some (.eip1559 maxFee maxPriority)
  | none => none

/-- Lines 42–47 of the source: take the suggested fee; when it is `None`,
fall back to `{'gasPrice': web3.eth.gas_price}`. -/
def resolveFee (suggested : Option (Nat × Nat)) (chainGasPrice : Nat) : FeeQuote :=
  match suggest_gas_fees suggested with
  | some quote => quote
  | none => .legacy chainGasPrice

/-! ### Transaction lifecycle: estimate → sign → submit → confirm -/

/-- Whether `pat` is a prefix of `s`, over character lists. -/
def charsPrefix : List Char → List Char → Bool
  | [], _ => true
  | _ :: _, [] => false
  | a :: pat, b :: s => a = b && charsPrefix pat s

/-- Whether `pat` occurs as a contiguous run inside `s`. -/
def charsContain (pat : List Char) : List Char → Bool
  | [] => pat.isEmpty
  | c :: rest => charsPrefix pat (c :: rest) || charsContain pat rest

/-- Python's `'insufficient funds' in str(e)` substring test. -/
def insufficientIn (msg : String) : Bool :=
  charsContain ("insufficient funds").data msg.data

/-- Outcome of `web3.eth.estimate_gas` on a built transaction. -/
inductive EstimateResult
  | ok (gas : Nat)
  | err (msg : String)
deriving DecidableEq, Repr

/-- Result of running a Python function that either returns a boolean or
lets an exception propagate to its caller. -/
inductive PyResult
  | returns (b : Bool)
  | raises (e : String)
deriving DecidableEq, Repr

/-- The transaction dict built for the bridge: chain id, nonce, gas limit
(initially 0), the fee fields merged from the quote, and the value. -/
structure BridgeTxn where
  chainId : Nat
  nonce : Nat
  gas : Nat
  fee : FeeQuote
  value : Nat
deriving DecidableEq, Repr

/-- Externally visible steps of one run of `bridge_to_scroll`, in order. -/
inductive BridgeEvent
  | feeQueried (params : List Nat) (fee : List Nat)
  | txnBuilt (t : BridgeTxn)
  | estimateTried
  | loggedInsufficientFunds
  | loggedEstimationError (msg : String)
  | signed
  | submitted (t : BridgeTxn)
deriving DecidableEq, Repr

/-- The chain responses one run of `bridge_to_scroll` observes: the
suggested fee, the source-chain gas price, the account nonce, the fee tuple
returned by `estimateSendFee`, the gas-estimation outcome, and the status
of the receipt returned by the receipt wait (`none` for no receipt). -/
structure BridgeEnv where
  chainId : Nat
  suggested : Option (Nat × Nat)
  chainGasPrice : Nat
  nonce : Nat
  amountWei : Nat
  addressNo0x : String
  sendFee : List Nat
  estimate : EstimateResult
  receiptStatus : Option Nat
deriving Repr

/-- Shallow embedding of `bridge_to_scroll` (lines 16–103): resolve the
fee, encode the adapter params, query `estimateSendFee` with them, build
the transaction with `value = amount_in_wei + sum(send_fee)`, try gas
estimation (an `insufficient funds` message or any other error returns
`False` before signing), then sign, submit, and map the receipt status to
the boolean result. -/
def bridge_to_scroll (env : BridgeEnv) : PyResult × List BridgeEvent :=
  let fee := resolveFee env.suggested env.chainGasPrice
  match adapter_params env.amountWei env.addressNo0x with
  | none => (.raises "ValueError", [])
  | some params =>
    let txn : BridgeTxn :=
      { chainId := env.chainId, nonce := env.nonce, gas := 0, fee := fee,
        value := env.amountWei + env.sendFee.sum }
    let evs := [BridgeEvent.feeQueried params env.sendFee, BridgeEvent.txnBuilt txn,
      BridgeEvent.estimateTried]
    match env.estimate with
    | .err msg =>
      if insufficientIn msg then
        (.returns false, evs ++ [.loggedInsufficientFunds])
      else
        (.returns false, evs ++ [.loggedEstimationError msg])
    | .ok g =>
      let signedTxn := { txn with gas := g }
      let evs := evs ++ [BridgeEvent.signed, BridgeEvent.submitted signedTxn]
      if env.receiptStatus = some 1 then (.returns true, evs)
      else (.returns false, evs)

/-! ### The gas-price gate of `deploy_random_contract` lines 122–132 -/

/-- The gate loop over a stream of gas-price readings (wei; `error` is a
raised RPC exception).  It scans the readings in order: a failed reading is
logged and slept through; a successful reading `≤ ceiling` breaks the loop;
a successful reading above the ceiling is slept through.  Returns the
breaking reading together with the number of sleeps performed (one per
non-breaking reading, i.e. the breaking reading's index); `none` when the
finite stream is exhausted, standing for a loop that never exits.  The
source compares `float(Web3.from_wei(p, 'gwei')) <= max_gwei`; for a
whole-gwei ceiling this is exactly `p ≤ ceilingGwei * 10^9`. -/
def gasGate (ceilingGwei : Nat) : List (Except String Nat) → Option (Nat × Nat)
  | [] => none
  | .error _ :: rest => (gasGate ceilingGwei rest).map fun pr => (pr.1, pr.2 + 1)
  | .ok p :: rest =>
    if p ≤ ceilingGwei * 1000000000 then some (p, 0)
    else (gasGate ceilingGwei rest).map fun pr => (pr.1, pr.2 + 1)

/-! ### The post-bridge balance wait of lines 181–189 -/

/-- The wait loop over a stream of destination-balance readings: a failed
reading is logged and slept through; a successful reading strictly greater
than the pre-bridge balance breaks the loop; anything else is slept
through.  Returns the observed balance that broke the loop, `none` when the
finite stream is exhausted (a loop that never exits). -/
def waitBalanceIncrease (pre : Nat) : List (Except String Nat) → Option Nat
  | [] => none
  | .error _ :: rest => waitBalanceIncrease pre rest
  | .ok b :: rest => if pre < b then some b else waitBalanceIncrease pre rest

/-! ### `deploy_random_contract` (lines 106–216) -/

/-- The deployment transaction dict: chain id, nonce, gas limit (initially
0) and the legacy `gasPrice` taken from the gate's last reading. -/
structure DeployTxn where
  chainId : Nat
  nonce : Nat
  gas : Nat
  gasPrice : Nat
deriving DecidableEq, Repr

/-- Externally visible steps of one run of `deploy_random_contract`. -/
inductive DeployEvent
  | gateReturned (priceWei : Nat)
  | compiled
  | txnBuilt (t : DeployTxn)
  | bridgeInvoked
  | balanceObserved (b : Nat)
  | estimateTried
  | loggedInsufficientFunds
  | loggedEstimationError (msg : String)
  | signed
  | submitted (t : DeployTxn)
deriving DecidableEq, Repr

/-- Result of one run of `deploy_random_contract`: a boolean return, a
propagated exception, or a wait loop that never exits. -/
inductive DeployResult
  | returns (b : Bool)
  | raises (e : String)
  | blocks
deriving DecidableEq, Repr

/-- The responses one run of `deploy_random_contract` observes: the
reference-chain (Ethereum) gas-price readings consumed by the gate, the
ceiling, whether compilation succeeds, the account nonce, the destination
(Scroll) balance, the bridge threshold in wei, the outcome of the
`bridge_to_scroll` sub-call when invoked, the destination-balance readings
of the post-bridge wait, the gas-estimation outcome, and the receipt
status. -/
structure DeployEnv where
  ethGasReadings : List (Except String Nat)
  maxGwei : Nat
  compileOk : Bool
  chainId : Nat
  nonce : Nat
  scrollBalance : Nat
  bridgeThresholdWei : Nat
  bridgeOutcome : PyResult
  postBridgeBalances : List (Except String Nat)
  estimate : EstimateResult
  receiptStatus : Option Nat
deriving Repr

/-- Lines 191–216: the estimate → sign → submit → confirm tail shared by
every path of `deploy_random_contract` that reaches estimation. -/
def deployFinish (env : DeployEnv) (txn : DeployTxn) (evs : List DeployEvent) :
    DeployResult × List DeployEvent :=
  let evs := evs ++ [DeployEvent.estimateTried]
  match env.estimate with
  | .err msg =>
    if insufficientIn msg then
      (.returns false, evs ++ [.loggedInsufficientFunds])
    else
      (.returns false, evs ++ [.loggedEstimationError msg])
  | .ok g =>
    let signedTxn := { txn with gas := g }
    let evs := evs ++ [DeployEvent.signed, DeployEvent.submitted signedTxn]
    if env.receiptStatus = some 1 then (.returns true, evs)
    else (.returns false, evs)

/-- Shallow embedding of `deploy_random_contract`: gate on the Ethereum
gas price, compile (a failure propagates), build the deployment transaction
with the gate's price and the current nonce, check the Scroll balance
against the bridge threshold — bridging and waiting for the balance to
increase when short — then estimate, sign, submit and confirm. -/
def deploy_random_contract (env : DeployEnv) : DeployResult × List DeployEvent :=
  match gasGate env.maxGwei env.ethGasReadings with
  | none => (.blocks, [])
  | some (price, _) =>
    let evs := [DeployEvent.gateReturned price]
    if env.compileOk then
      let txn : DeployTxn :=
        { chainId := env.chainId, nonce := env.nonce, gas := 0, gasPrice := price }
      let evs := evs ++ [DeployEvent.compiled, DeployEvent.txnBuilt txn]
      if env.scrollBalance < env.bridgeThresholdWei then
        let evs := evs ++ [DeployEvent.bridgeInvoked]
        match env.bridgeOutcome with
        | .raises e => (.raises e, evs)
        | .returns false => (.returns false, evs)
        | .returns true =>
          match waitBalanceIncrease env.scrollBalance env.postBridgeBalances with
          | none => (.blocks, evs)
          | some b => deployFinish env txn (evs ++ [DeployEvent.balanceObserved b])
      else
        deployFinish env txn evs
    else
      (.raises "CompileError", evs)

/-! ### The fleet loop of `main` (lines 219–245) -/

/-- Result of the whole fleet run: a completed run with its tally
(`deployed`, `failed = n - deployed`) and the number of inter-account
sleeps, or a run aborted by a propagated exception after `processed`
completed accounts (no tally is ever logged then), or a run stuck in one
account's wait loop. -/
inductive FleetResult
  | done (deployed failed sleeps : Nat)
  | aborted (e : String) (processed sleeps : Nat)
  | blocked (processed sleeps : Nat)
deriving DecidableEq, Repr

/-- Shallow embedding of `main`: sequentially run `deploy_random_contract`
for each account, adding its boolean result to the deployed tally
(`total_deployed += ...`), sleeping a random duration after every account
except the last; an exception propagating out of an account attempt aborts
the loop.  The failed count is computed at the end as
`len(private_keys) - total_deployed`. -/
def fleetRun : List DeployEnv → FleetResult
  | [] => .done 0 0 0
  | env :: rest =>
    match (deploy_random_contract env).1 with
    | .raises e => .aborted e 0 0
    | .blocks => .blocked 0 0
    | .returns b =>
      match rest with
      | [] => .done (if b then 1 else 0) (if b then 0 else 1) 0
      | _ :: _ =>
        match fleetRun rest with
        | .done d f s => .done (d + if b then 1 else 0) (f + if b then 0 else 1) (s + 1)
        | .aborted e p s => .aborted e (p + 1) (s + 1)
        | .blocked p s => .blocked (p + 1) (s + 1)

/-- The transaction dict `bridge_to_scroll` builds before estimation. -/
def bridgeTxnOf (env : BridgeEnv) : BridgeTxn :=
  { chainId := env.chainId, nonce := env.nonce, gas := 0,
    fee := resolveFee env.suggested env.chainGasPrice,
    value := env.amountWei + env.sendFee.sum }

/-- The head of the bridge event list once the adapter params encode: the
fee query with those params, the transaction build, and the estimation
attempt. -/
def bridgeHead (env : BridgeEnv) (params : List Nat) : List BridgeEvent :=
  [.feeQueried params env.sendFee, .txnBuilt (bridgeTxnOf env), .estimateTried]

/-- The deployment transaction as first built: gas limit 0, `gasPrice`
the gate's breaking reading, nonce read at build time. -/
def deployTxnOf (env : DeployEnv) (price : Nat) : DeployTxn :=
  { chainId := env.chainId, nonce := env.nonce, gas := 0, gasPrice := price }

/-- The head of the deploy event list once the gate has returned `price`
and compilation succeeded. -/
def deployHead (env : DeployEnv) (price : Nat) : List DeployEvent :=
  [.gateReturned price, .compiled, .txnBuilt (deployTxnOf env price)]

/-- Number of accounts in the run whose attempt returned `True`. -/
def successesIn (envs : List DeployEnv) : Nat :=
  envs.countP fun e => (deploy_random_contract e).1 == DeployResult.returns true

/-- An account environment on which `deploy_random_contract` raises a
compile error: the gate passes at 20 gwei under a 30 gwei ceiling, then
`compile_source` fails. -/
def envCompileFail : DeployEnv :=
  { ethGasReadings := [.ok 20000000000], maxGwei := 30, compileOk := false,
    chainId := 534352, nonce := 0, scrollBalance := 10, bridgeThresholdWei := 5,
    bridgeOutcome := .returns true, postBridgeBalances := [], estimate := .ok 21000,
    receiptStatus := some 1 }

/-- An account environment on which `deploy_random_contract` succeeds:
gate passes, compilation succeeds, the balance is above the bridge
threshold, estimation succeeds and the receipt has status 1. -/
def envSuccess : DeployEnv :=
  { ethGasReadings := [.ok 20000000000], maxGwei := 30, compileOk := true,
    chainId := 534352, nonce := 0, scrollBalance := 10, bridgeThresholdWei := 5,
    bridgeOutcome := .returns true, postBridgeBalances := [], estimate := .ok 21000,
    receiptStatus := some 1 }

/-- An account environment on which estimation fails with an
insufficient-funds message, so the attempt returns `False`. -/
def envInsufficient : DeployEnv :=
  { envSuccess with
    estimate := .err "insufficient funds for gas * price + value" }

/-- A concrete bridge run: no suggested fee, a small amount, a two
component `estimateSendFee` quote, successful estimation and receipt. -/
def envBridge : BridgeEnv :=
  { chainId := 42161, suggested := none, chainGasPrice := 10000000,
    nonce := 3, amountWei := 15, addressNo0x := sampleAddress,
    sendFee := [100, 1], estimate := .ok 250000, receiptStatus := some 1 }

/-- The concrete bridge run of `envBridge` with estimation failing on an
insufficient-funds message. -/
def envBridgeInsufficient : BridgeEnv :=
  { envBridge with estimate := .err "insufficient funds for transfer" }

/-- A deploy run that needs the bridge: destination balance 3 wei under a
5 wei threshold, bridge confirmed, balance readings [error, 3, 9]. -/
def envBridgeWait : DeployEnv :=
  { ethGasReadings := [.ok 20000000000], maxGwei := 30, compileOk := true,
    chainId := 534352, nonce := 0, scrollBalance := 3, bridgeThresholdWei := 5,
    bridgeOutcome := .returns true,
    postBridgeBalances := [.error "rpc timeout", .ok 3, .ok 9],
    estimate := .ok 21000, receiptStatus := some 1 }

/-- The deploy run of `envBridgeWait` with the bridge returning failure. -/
def envBridgeFail : DeployEnv :=
  { envBridgeWait with bridgeOutcome := .returns false }

/-- `hexDigitsAux` yields `[]` on zero, whatever the fuel. -/
lemma hexDigitsAux_zero (f : Nat) : hexDigitsAux f 0 = [] := by
  cases f <;> simp [hexDigitsAux]

/-- The fuel of `hexDigitsAux` is irrelevant as long as it dominates the
digit count: any two sufficient fuels agree. -/
lemma hexDigitsAux_congr :
    ∀ f g n, n < 16 ^ f → n < 16 ^ g → hexDigitsAux f n = hexDigitsAux g n := by
  intro f
  induction f with
  | zero =>
    intro g n hf _
    simp at hf
    subst hf
    simp [hexDigitsAux_zero, hexDigitsAux]
  | succ f ih =>
    intro g n hf hg
    cases g with
    | zero =>
      simp at hg
      subst hg
      simp [hexDigitsAux_zero]
    | succ g =>
      by_cases hn : n = 0
      · subst hn
        simp [hexDigitsAux]
      · simp only [hexDigitsAux, if_neg hn]
        have hdf : n / 16 < 16 ^ f := by
          rw [Nat.div_lt_iff_lt_mul (by norm_num)]
          calc n < 16 ^ (f + 1) := hf
            _ = 16 ^ f * 16 := by ring
        have hdg : n / 16 < 16 ^ g := by
          rw [Nat.div_lt_iff_lt_mul (by norm_num)]
          calc n < 16 ^ (g + 1) := hg
            _ = 16 ^ g * 16 := by ring
        rw [ih g (n / 16) hdf hdg]

/-- Any natural number is below `16 ^ (n + 1)`, so the fuel `n + 1` used in
`pyHex` is always sufficient. -/
lemma lt_sixteen_pow_succ (n : Nat) : n < 16 ^ (n + 1) :=
  lt_of_lt_of_le (Nat.lt_pow_self (by norm_num) n)
    (Nat.pow_le_pow_right (by norm_num) (Nat.le_succ n))

/-- `pyHex` of a nonzero value can be evaluated at any sufficient fuel. -/
lemma pyHex_eval (n f : Nat) (hn : n ≠ 0) (hf : n < 16 ^ f) :
    pyHex n = String.mk (hexDigitsAux f n) := by
  rw [pyHex, if_neg hn, hexDigitsAux_congr (n + 1) f n (lt_sixteen_pow_succ n) hf]

/-- Claim C8: the fee-estimation step is total — when the suggestion
capability yields a priority-fee quote the step uses it, and when the
capability reports unsupported/failure (spec-modelled as `None`, since
`utils.suggest_gas_fees` is outside the provided sources) the step falls
back to the legacy single gas price read from the chain endpoint; either
way a usable quote results and nothing is raised. -/
theorem fee_fallback_always_usable :
    ∀ suggested chainGasPrice,
      (∀ maxFee maxPriority, suggested = some (maxFee, maxPriority) →
        resolveFee suggested chainGasPrice = .eip1559 maxFee maxPriority) ∧
      (suggested = none → resolveFee suggested chainGasPrice = .legacy chainGasPrice) := by
  intro suggested chainGasPrice
  constructor
  · rintro maxFee maxPriority rfl
    rfl
  · rintro rfl
    rfl

/-- Witness for C8: both fallback paths at concrete inputs. -/
theorem fee_fallback_always_usable_witness :
    resolveFee (some (7, 2)) 5 = .eip1559 7 2 ∧ resolveFee none 5 = .legacy 5 :=
  ⟨(fee_fallback_always_usable (some (7, 2)) 5).1 7 2 rfl,
    (fee_fallback_always_usable none 5).2 rfl⟩

/-- Complete case analysis of one `bridge_to_scroll` run once the adapter
params encode: estimation fails as insufficient funds, estimation fails
otherwise, or estimation succeeds and the run signs and submits. -/
lemma bridge_run_cases (env : BridgeEnv) (params : List Nat)
    (hap : adapter_params env.amountWei env.addressNo0x = some params) :
    (∃ msg, env.estimate = .err msg ∧ insufficientIn msg = true ∧
      bridge_to_scroll env =
        (.returns false, bridgeHead env params ++ [.loggedInsufficientFunds])) ∨
    (∃ msg, env.estimate = .err msg ∧ insufficientIn msg = false ∧
      bridge_to_scroll env =
        (.returns false, bridgeHead env params ++ [.loggedEstimationError msg])) ∨
    (∃ g, env.estimate = .ok g ∧
      bridge_to_scroll env =
        (.returns (env.receiptStatus = some 1),
          bridgeHead env params ++
            [.signed, .submitted { bridgeTxnOf env with gas := g }])) := by
  unfold bridge_to_scroll
  rw [hap]
  cases hest : env.estimate with
  | err msg =>
    by_cases hins : insufficientIn msg
    · exact Or.inl ⟨msg, rfl, hins, by simp [hins, bridgeTxnOf, bridgeHead]⟩
    · refine Or.inr (Or.inl ⟨msg, rfl, by simpa using hins, ?_⟩)
      simp [hins, bridgeTxnOf, bridgeHead]
  | ok g =>
    refine Or.inr (Or.inr ⟨g, rfl, ?_⟩)
    by_cases hrs : env.receiptStatus = some 1
    · simp [hrs, bridgeTxnOf, bridgeHead]
    · simp [hrs, bridgeTxnOf, bridgeHead]

/-- Claim C7: whenever `bridge_to_scroll` builds its transaction, the
transaction's `value` equals the requested bridge amount in wei plus the
sum of the fee components returned by the bridge contract's
`estimateSendFee` entry point, which was queried with the encoded adapter
params. -/
theorem bridge_value_includes_quoted_fee :
    ∀ env t, BridgeEvent.txnBuilt t ∈ (bridge_to_scroll env).2 →
      t.value = env.amountWei + env.sendFee.sum ∧
      ∃ params, adapter_params env.amountWei env.addressNo0x = some params ∧
        BridgeEvent.feeQueried params env.sendFee ∈ (bridge_to_scroll env).2 := by
  intro env t hmem
  cases hap : adapter_params env.amountWei env.addressNo0x with
  | none =>
    have hevs : (bridge_to_scroll env).2 = [] := by
      unfold bridge_to_scroll
      rw [hap]
    rw [hevs] at hmem
    simp at hmem
  | some params =>
    have hmem' : t = bridgeTxnOf env := by
      rcases bridge_run_cases env params hap with
        ⟨msg, _, _, hrun⟩ | ⟨msg, _, _, hrun⟩ | ⟨g, _, hrun⟩ <;>
      · rw [hrun] at hmem
        simp [bridgeHead] at hmem
        exact hmem
    have hfee : BridgeEvent.feeQueried params env.sendFee ∈ (bridge_to_scroll env).2 := by
      rcases bridge_run_cases env params hap with
        ⟨msg, _, _, hrun⟩ | ⟨msg, _, _, hrun⟩ | ⟨g, _, hrun⟩ <;>
      simp [hrun, bridgeHead]
    subst hmem'
    exact ⟨rfl, params, rfl, hfee⟩

/-- Complete case analysis of the estimation tail `deployFinish`. -/
lemma deployFinish_cases (env : DeployEnv) (txn : DeployTxn) (evs : List DeployEvent) :
    (∃ msg, env.estimate = .err msg ∧ insufficientIn msg = true ∧
      deployFinish env txn evs =
        (.returns false, evs ++ [.estimateTried, .loggedInsufficientFunds])) ∨
    (∃ msg, env.estimate = .err msg ∧ insufficientIn msg = false ∧
      deployFinish env txn evs =
        (.returns false, evs ++ [.estimateTried, .loggedEstimationError msg])) ∨
    (∃ g, env.estimate = .ok g ∧
      deployFinish env txn evs =
        (.returns (env.receiptStatus = some 1),
          evs ++ [.estimateTried, .signed, .submitted { txn with gas := g }])) := by
  unfold deployFinish
  cases hest : env.estimate with
  | err msg =>
    by_cases hins : insufficientIn msg
    · exact Or.inl ⟨msg, rfl, hins, by simp [hins]⟩
    · refine Or.inr (Or.inl ⟨msg, rfl, by simpa using hins, ?_⟩)
      simp [hins]
  | ok g =>
    refine Or.inr (Or.inr ⟨g, rfl, ?_⟩)
    by_cases hrs : env.receiptStatus = some 1
    · simp [hrs]
    · simp [hrs]

/-- A run whose gate never exits blocks with no events. -/
lemma deploy_gate_blocks (env : DeployEnv)
    (hg : gasGate env.maxGwei env.ethGasReadings = none) :
    deploy_random_contract env = (.blocks, []) := by
  unfold deploy_random_contract
  rw [hg]

/-- A compile failure propagates right after the gate. -/
lemma deploy_compile_raises (env : DeployEnv) (price idx : Nat)
    (hg : gasGate env.maxGwei env.ethGasReadings = some (price, idx))
    (hc : env.compileOk = false) :
    deploy_random_contract env = (.raises "CompileError", [.gateReturned price]) := by
  unfold deploy_random_contract
  rw [hg]
  simp [hc]

/-- Complete case analysis of one `deploy_random_contract` run that passes
the gate and compiles: funded (straight to the estimation tail), bridge
raised, bridge returned failure, bridge confirmed but the balance wait
never exits, or the balance wait observed an increase and the run reaches
the estimation tail. -/
lemma deploy_run_cases (env : DeployEnv) (price idx : Nat)
    (hg : gasGate env.maxGwei env.ethGasReadings = some (price, idx))
    (hc : env.compileOk = true) :
    (env.bridgeThresholdWei ≤ env.scrollBalance ∧
      deploy_random_contract env =
        deployFinish env (deployTxnOf env price) (deployHead env price)) ∨
    (env.scrollBalance < env.bridgeThresholdWei ∧
      ((∃ e, env.bridgeOutcome = .raises e ∧
          deploy_random_contract env =
            (.raises e, deployHead env price ++ [.bridgeInvoked])) ∨
        (env.bridgeOutcome = .returns false ∧
          deploy_random_contract env =
            (.returns false, deployHead env price ++ [.bridgeInvoked])) ∨
        (env.bridgeOutcome = .returns true ∧
          waitBalanceIncrease env.scrollBalance env.postBridgeBalances = none ∧
          deploy_random_contract env =
            (.blocks, deployHead env price ++ [.bridgeInvoked])) ∨
        (∃ b, env.bridgeOutcome = .returns true ∧
          waitBalanceIncrease env.scrollBalance env.postBridgeBalances = some b ∧
          deploy_random_contract env =
            deployFinish env (deployTxnOf env price)
              (deployHead env price ++ [.bridgeInvoked, .balanceObserved b])))) := by
  unfold deploy_random_contract
  rw [hg]
  simp only [hc, if_true]
  by_cases hb : env.scrollBalance < env.bridgeThresholdWei
  · refine Or.inr ⟨hb, ?_⟩
    cases hbo : env.bridgeOutcome with
    | raises e =>
      refine Or.inl ⟨e, rfl, ?_⟩
      simp [hb, deployHead, deployTxnOf]
    | returns b =>
      cases b with
      | false =>
        refine Or.inr (Or.inl ⟨rfl, ?_⟩)
        simp [hb, deployHead, deployTxnOf]
      | true =>
        cases hw : waitBalanceIncrease env.scrollBalance env.postBridgeBalances with
        | none =>
          refine Or.inr (Or.inr (Or.inl ⟨rfl, rfl, ?_⟩))
          simp [hb, hw, deployHead, deployTxnOf]
        | some bal =>
          refine Or.inr (Or.inr (Or.inr ⟨bal, rfl, rfl, ?_⟩))
          simp [hb, hw, deployHead, deployTxnOf]
  · refine Or.inl ⟨by omega, ?_⟩
    simp [hb, deployHead, deployTxnOf]

set_option maxRecDepth 16384 in
/-- Claim C1 (code bug): for `amountWei = 16^13`, whose hex form has 14
digits, the encoding does NOT fail loudly: `rjust` never truncates, so the
concatenation has 173 hex characters, and the `HexBytes` constructor
silently left-pads the odd-length string and produces an 87-byte blob whose
leading bytes are `0x00 0x00` — every field shifted by half a byte —
whereas a 13-hex-digit amount (e.g. `16^13 - 1`) yields the well-formed
86-byte blob starting with the `0x00 0x02` type field.  No error is raised
on the oversized amount. -/
theorem adapter_params_overflow_is_silently_corrupted :
    (∃ blob, adapter_params (16 ^ 13) sampleAddress = some blob ∧
      blob.length = 87 ∧ blob.take 2 = [0, 0]) ∧
    (∃ blob, adapter_params (16 ^ 13 - 1) sampleAddress = some blob ∧
      blob.length = 86 ∧ blob.take 2 = [0, 2]) := by
  have h1 : adapter_params (16 ^ 13) sampleAddress =
      hexBytes (adapterPrefix ++ rjustZero "10000000000000" 13 ++ sampleAddress) := by
    unfold adapter_params adapterParamsHexStr
    rw [pyHex_eval (16 ^ 13) 14 (by norm_num) (by norm_num)]
    rfl
  have h2 : adapter_params (16 ^ 13 - 1) sampleAddress =
      hexBytes (adapterPrefix ++ rjustZero "fffffffffffff" 13 ++ sampleAddress) := by
    unfold adapter_params adapterParamsHexStr
    rw [pyHex_eval (16 ^ 13 - 1) 13 (by norm_num) (by norm_num)]
    rfl
  rw [h1, h2]
  exact ⟨⟨(hexBytes (adapterPrefix ++ rjustZero "10000000000000" 13 ++
      sampleAddress)).getD [], by decide⟩,
    ⟨(hexBytes (adapterPrefix ++ rjustZero "fffffffffffff" 13 ++
      sampleAddress)).getD [], by decide⟩⟩

/-- Claim C3: for both the bridge and the deployment attempt, an
estimation error whose message contains `insufficient funds` makes the
attempt terminate with the insufficient-funds outcome (return `False`
after logging it), with no signing and no submission; and conversely a
submission only ever happens after a successful estimation whose result
populated the transaction's gas limit. -/
theorem insufficient_funds_short_circuits :
    (∀ env msg, env.estimate = .err msg → insufficientIn msg = true →
      BridgeEvent.estimateTried ∈ (bridge_to_scroll env).2 →
      (bridge_to_scroll env).1 = .returns false ∧
      BridgeEvent.loggedInsufficientFunds ∈ (bridge_to_scroll env).2 ∧
      BridgeEvent.signed ∉ (bridge_to_scroll env).2 ∧
      ∀ t, BridgeEvent.submitted t ∉ (bridge_to_scroll env).2) ∧
    (∀ env t, BridgeEvent.submitted t ∈ (bridge_to_scroll env).2 →
      ∃ g, env.estimate = .ok g ∧ t.gas = g) ∧
    (∀ env msg, env.estimate = .err msg → insufficientIn msg = true →
      DeployEvent.estimateTried ∈ (deploy_random_contract env).2 →
      (deploy_random_contract env).1 = .returns false ∧
      DeployEvent.loggedInsufficientFunds ∈ (deploy_random_contract env).2 ∧
      DeployEvent.signed ∉ (deploy_random_contract env).2 ∧
      ∀ t, DeployEvent.submitted t ∉ (deploy_random_contract env).2) ∧
    (∀ env t, DeployEvent.submitted t ∈ (deploy_random_contract env).2 →
      ∃ g, env.estimate = .ok g ∧ t.gas = g) := by
  refine ⟨?_, ?_, ?_, ?_⟩
  · intro env msg hest hins htried
    cases hap : adapter_params env.amountWei env.addressNo0x with
    | none =>
      have hrun : bridge_to_scroll env = (.raises "ValueError", []) := by
        unfold bridge_to_scroll
        rw [hap]
      rw [hrun] at htried
      simp at htried
    | some params =>
      rcases bridge_run_cases env params hap with
        ⟨msg', hest', hins', hrun⟩ | ⟨msg', hest', hins', hrun⟩ | ⟨g, hest', hrun⟩
      · rw [hrun]
        simp [bridgeHead]
      · rw [hest] at hest'
        injection hest' with h
        subst h
        rw [hins] at hins'
        cases hins'
      · rw [hest] at hest'
        cases hest'
  · intro env t hmem
    cases hap : adapter_params env.amountWei env.addressNo0x with
    | none =>
      have hrun : bridge_to_scroll env = (.raises "ValueError", []) := by
        unfold bridge_to_scroll
        rw [hap]
      rw [hrun] at hmem
      simp at hmem
    | some params =>
      rcases bridge_run_cases env params hap with
        ⟨msg', hest', hins', hrun⟩ | ⟨msg', hest', hins', hrun⟩ | ⟨g, hest', hrun⟩ <;>
        rw [hrun] at hmem <;> simp [bridgeHead] at hmem
      subst hmem
      exact ⟨g, hest', rfl⟩
  · intro env msg hest hins htried
    cases hg : gasGate env.maxGwei env.ethGasReadings with
    | none =>
      rw [deploy_gate_blocks env hg] at htried
      simp at htried
    | some pr =>
      obtain ⟨price, idx⟩ := pr
      cases hc : env.compileOk with
      | false =>
        rw [deploy_compile_raises env price idx hg hc] at htried
        simp at htried
      | true =>
        rcases deploy_run_cases env price idx hg hc with
          ⟨hb, hrun⟩ | ⟨hb, ⟨e, hbo, hrun⟩ | ⟨hbo, hrun⟩ | ⟨hbo, hw, hrun⟩ |
            ⟨b, hbo, hw, hrun⟩⟩
        · rcases deployFinish_cases env (deployTxnOf env price) (deployHead env price) with
            ⟨msg', hest', hins', hfin⟩ | ⟨msg', hest', hins', hfin⟩ | ⟨g, hest', hfin⟩
          · rw [hrun, hfin]
            simp [deployHead]
          · rw [hest] at hest'
            injection hest' with h
            subst h
            rw [hins] at hins'
            cases hins'
          · rw [hest] at hest'
            cases hest'
        · rw [hrun] at htried
          simp [deployHead] at htried
        · rw [hrun] at htried
          simp [deployHead] at htried
        · rw [hrun] at htried
          simp [deployHead] at htried
        · rcases deployFinish_cases env (deployTxnOf env price)
              (deployHead env price ++ [.bridgeInvoked, .balanceObserved b]) with
            ⟨msg', hest', hins', hfin⟩ | ⟨msg', hest', hins', hfin⟩ | ⟨g, hest', hfin⟩
          · rw [hrun, hfin]
            simp [deployHead]
          · rw [hest] at hest'
            injection hest' with h
            subst h
            rw [hins] at hins'
            cases hins'
          · rw [hest] at hest'
            cases hest'
  · intro env t hmem
    cases hg : gasGate env.maxGwei env.ethGasReadings with
    | none =>
      rw [deploy_gate_blocks env hg] at hmem
      simp at hmem
    | some pr =>
      obtain ⟨price, idx⟩ := pr
      cases hc : env.compileOk with
      | false =>
        rw [deploy_compile_raises env price idx hg hc] at hmem
        simp at hmem
      | true =>
        rcases deploy_run_cases env price idx hg hc with
          ⟨hb, hrun⟩ | ⟨hb, ⟨e, hbo, hrun⟩ | ⟨hbo, hrun⟩ | ⟨hbo, hw, hrun⟩ |
            ⟨b, hbo, hw, hrun⟩⟩
        · rcases deployFinish_cases env (deployTxnOf env price) (deployHead env price) with
            ⟨msg', hest', hins', hfin⟩ | ⟨msg', hest', hins', hfin⟩ | ⟨g, hest', hfin⟩ <;>
          · rw [hrun, hfin] at hmem
            simp [deployHead] at hmem
            try (subst hmem; exact ⟨g, hest', rfl⟩)
        · rw [hrun] at hmem
          simp [deployHead] at hmem
        · rw [hrun] at hmem
          simp [deployHead] at hmem
        · rw [hrun] at hmem
          simp [deployHead] at hmem
        · rcases deployFinish_cases env (deployTxnOf env price)
              (deployHead env price ++ [.bridgeInvoked, .balanceObserved b]) with
            ⟨msg', hest', hins', hfin⟩ | ⟨msg', hest', hins', hfin⟩ | ⟨g, hest', hfin⟩ <;>
          · rw [hrun, hfin] at hmem
            simp [deployHead] at hmem
            try (subst hmem; exact ⟨g, hest', rfl⟩)

/-- The balance wait only ever returns an observation strictly above the
pre-bridge balance. -/
lemma waitBalanceIncrease_gt :
    ∀ pre rs b, waitBalanceIncrease pre rs = some b → pre < b := by
  intro pre rs
  induction rs with
  | nil =>
    intro b h
    simp [waitBalanceIncrease] at h
  | cons r rest ih =>
    intro b h
    cases r with
    | error e =>
      exact ih b h
    | ok v =>
      simp only [waitBalanceIncrease] at h
      by_cases hv : pre < v
      · rw [if_pos hv] at h
        injection h with h
        omega
      · rw [if_neg hv] at h
        exact ih b h

/-- Claim C4: the post-bridge wait loop returns only an observed
destination balance strictly above the pre-bridge balance, and whenever a
run both invoked the bridge and went on to the deployment estimation, some
strictly increased balance observation happened in between. -/
theorem bridge_success_requires_balance_increase :
    (∀ pre rs b, waitBalanceIncrease pre rs = some b → pre < b) ∧
    (∀ env, DeployEvent.bridgeInvoked ∈ (deploy_random_contract env).2 →
      DeployEvent.estimateTried ∈ (deploy_random_contract env).2 →
      ∃ b, DeployEvent.balanceObserved b ∈ (deploy_random_contract env).2 ∧
        env.scrollBalance < b) := by
  refine ⟨waitBalanceIncrease_gt, ?_⟩
  intro env hbr htried
  cases hg : gasGate env.maxGwei env.ethGasReadings with
  | none =>
    rw [deploy_gate_blocks env hg] at hbr
    simp at hbr
  | some pr =>
    obtain ⟨price, idx⟩ := pr
    cases hc : env.compileOk with
    | false =>
      rw [deploy_compile_raises env price idx hg hc] at hbr
      simp at hbr
    | true =>
      rcases deploy_run_cases env price idx hg hc with
        ⟨hb, hrun⟩ | ⟨hb, ⟨e, hbo, hrun⟩ | ⟨hbo, hrun⟩ | ⟨hbo, hw, hrun⟩ |
          ⟨b, hbo, hw, hrun⟩⟩
      · rcases deployFinish_cases env (deployTxnOf env price) (deployHead env price) with
          ⟨msg', _, _, hfin⟩ | ⟨msg', _, _, hfin⟩ | ⟨g, _, hfin⟩ <;>
        · rw [hrun, hfin] at hbr
          simp [deployHead] at hbr
      · rw [hrun] at htried
        simp [deployHead] at htried
      · rw [hrun] at htried
        simp [deployHead] at htried
      · rw [hrun] at htried
        simp [deployHead] at htried
      · refine ⟨b, ?_, waitBalanceIncrease_gt env.scrollBalance env.postBridgeBalances b hw⟩
        rcases deployFinish_cases env (deployTxnOf env price)
            (deployHead env price ++ [.bridgeInvoked, .balanceObserved b]) with
          ⟨msg', _, _, hfin⟩ | ⟨msg', _, _, hfin⟩ | ⟨g, _, hfin⟩ <;>
        · rw [hrun, hfin]
          simp [deployHead]

/-- The gate returns `some (p, i)` exactly when the reading at index `i`
succeeded with a value within the ceiling and every earlier successful
reading was above the ceiling (failed readings are slept through and not
counted as ceiling checks); `i` is also the number of sleeps performed. -/
lemma gasGate_iff (c : Nat) :
    ∀ rs p i, gasGate c rs = some (p, i) ↔
      (rs[i]? = some (.ok p) ∧ p ≤ c * 1000000000 ∧
        ∀ j, j < i → ∀ q, rs[j]? = some (.ok q) → c * 1000000000 < q) := by
  intro rs
  induction rs with
  | nil =>
    intro p i
    constructor
    · intro h
      simp [gasGate] at h
    · intro ⟨h, _⟩
      simp at h
  | cons r rest ih =>
    intro p i
    cases r with
    | error e =>
      constructor
      · intro h
        simp only [gasGate] at h
        cases hg : gasGate c rest with
        | none =>
          rw [hg] at h
          cases h
        | some pr =>
          obtain ⟨p', i'⟩ := pr
          rw [hg] at h
          simp at h
          obtain ⟨hp, hi⟩ := h
          subst hp
          subst hi
          obtain ⟨h1, h2, h3⟩ := (ih p' i').mp hg
          refine ⟨by simpa using h1, h2, ?_⟩
          intro j hj q hq
          cases j with
          | zero => simp at hq
          | succ j' =>
            simp at hq
            exact h3 j' (by omega) q hq
      · intro ⟨h1, h2, h3⟩
        cases i with
        | zero => simp at h1
        | succ i' =>
          simp at h1
          have h3' : ∀ j, j < i' → ∀ q, rest[j]? = some (.ok q) →
              c * 1000000000 < q := by
            intro j hj q hq
            exact h3 (j + 1) (by omega) q (by simpa using hq)
          have := (ih p i').mpr ⟨h1, h2, h3'⟩
          simp only [gasGate]
          rw [this]
          rfl
    | ok v =>
      by_cases hv : v ≤ c * 1000000000
      · constructor
        · intro h
          simp only [gasGate, if_pos hv] at h
          injection h with h
          injection h with h1 h2
          subst h1
          subst h2
          exact ⟨by simp, hv, by omega⟩
        · intro ⟨h1, h2, h3⟩
          cases i with
          | zero =>
            simp at h1
            subst h1
            simp only [gasGate, if_pos hv]
          | succ i' =>
            have := h3 0 (by omega) v (by simp)
            omega
      · constructor
        · intro h
          simp only [gasGate, if_neg hv] at h
          cases hg : gasGate c rest with
          | none =>
            rw [hg] at h
            cases h
          | some pr =>
            obtain ⟨p', i'⟩ := pr
            rw [hg] at h
            simp at h
            obtain ⟨hp, hi⟩ := h
            subst hp
            subst hi
            obtain ⟨h1, h2, h3⟩ := (ih p' i').mp hg
            refine ⟨by simpa using h1, h2, ?_⟩
            intro j hj q hq
            cases j with
            | zero =>
              simp at hq
              omega
            | succ j' =>
              simp at hq
              exact h3 j' (by omega) q hq
        · intro ⟨h1, h2, h3⟩
          cases i with
          | zero =>
            simp at h1
            subst h1
            omega
          | succ i' =>
            simp at h1
            have h3' : ∀ j, j < i' → ∀ q, rest[j]? = some (.ok q) →
                c * 1000000000 < q := by
              intro j hj q hq
              exact h3 (j + 1) (by omega) q (by simpa using hq)
            have := (ih p i').mpr ⟨h1, h2, h3'⟩
            simp only [gasGate, if_neg hv]
            rw [this]
            rfl

/-- Claim C5: the gas-price gate returns exactly at the first successful
reading within the ceiling — all earlier successful readings were above
the ceiling, failed readings are logged, slept through and not counted as
ceiling checks, and the number of sleeps equals the breaking reading's
index.  At readings [50, 40, 25] gwei with ceiling 30 it returns only at
the third reading (after 2 sleeps), and a leading failed reading is simply
retried. -/
theorem gas_gate_first_acceptable :
    (∀ c rs p i, gasGate c rs = some (p, i) ↔
      (rs[i]? = some (.ok p) ∧ p ≤ c * 1000000000 ∧
        ∀ j, j < i → ∀ q, rs[j]? = some (.ok q) → c * 1000000000 < q)) ∧
    gasGate 30 [.ok 50000000000, .ok 40000000000, .ok 25000000000] =
      some (25000000000, 2) ∧
    gasGate 30 [.error "timeout", .ok 50000000000, .ok 25000000000] =
      some (25000000000, 2) := by
  exact ⟨gasGate_iff, by decide, by decide⟩

/-- Witness for C5: the characterization applied to the concrete reading
sequence [50, 40, 25] gwei with ceiling 30 gwei. -/
theorem gas_gate_first_acceptable_witness :
    ([Except.ok 50000000000, Except.ok 40000000000,
        Except.ok 25000000000] : List (Except String Nat))[2]? =
      some (.ok 25000000000) ∧ 25000000000 ≤ 30 * 1000000000 := by
  have h := gas_gate_first_acceptable
  have hc := (h.1 30 [Except.ok 50000000000, Except.ok 40000000000,
    Except.ok 25000000000] 25000000000 2).mp h.2.1
  exact ⟨hc.1, hc.2.1⟩

/-- Claim C6: an account whose destination balance is at or above the
bridge threshold never invokes the bridge (and, once gate and compilation
pass, goes straight to the deployment estimation); an account below the
threshold invokes the bridge, and a bridge failure makes the attempt
return `False` without ever reaching the deployment estimation. -/
theorem bridge_only_when_below_threshold :
    (∀ env, env.bridgeThresholdWei ≤ env.scrollBalance →
      DeployEvent.bridgeInvoked ∉ (deploy_random_contract env).2) ∧
    (∀ env price idx, gasGate env.maxGwei env.ethGasReadings = some (price, idx) →
      env.compileOk = true →
      (env.bridgeThresholdWei ≤ env.scrollBalance →
        DeployEvent.estimateTried ∈ (deploy_random_contract env).2) ∧
      (env.scrollBalance < env.bridgeThresholdWei →
        DeployEvent.bridgeInvoked ∈ (deploy_random_contract env).2 ∧
        (env.bridgeOutcome = .returns false →
          (deploy_random_contract env).1 = .returns false ∧
          DeployEvent.estimateTried ∉ (deploy_random_contract env).2))) := by
  constructor
  · intro env hfund
    cases hg : gasGate env.maxGwei env.ethGasReadings with
    | none =>
      rw [deploy_gate_blocks env hg]
      simp
    | some pr =>
      obtain ⟨price, idx⟩ := pr
      cases hc : env.compileOk with
      | false =>
        rw [deploy_compile_raises env price idx hg hc]
        simp
      | true =>
        rcases deploy_run_cases env price idx hg hc with
          ⟨hb, hrun⟩ | ⟨hb, _⟩
        · rcases deployFinish_cases env (deployTxnOf env price) (deployHead env price) with
            ⟨msg', _, _, hfin⟩ | ⟨msg', _, _, hfin⟩ | ⟨g, _, hfin⟩ <;>
          · rw [hrun, hfin]
            simp [deployHead]
        · omega
  · intro env price idx hg hc
    constructor
    · intro hfund
      rcases deploy_run_cases env price idx hg hc with
        ⟨hb, hrun⟩ | ⟨hb, _⟩
      · rcases deployFinish_cases env (deployTxnOf env price) (deployHead env price) with
          ⟨msg', _, _, hfin⟩ | ⟨msg', _, _, hfin⟩ | ⟨g, _, hfin⟩ <;>
        · rw [hrun, hfin]
          simp [deployHead]
      · omega
    · intro hshort
      rcases deploy_run_cases env price idx hg hc with
        ⟨hb, hrun⟩ | ⟨hb, ⟨e, hbo, hrun⟩ | ⟨hbo, hrun⟩ | ⟨hbo, hw, hrun⟩ |
          ⟨b, hbo, hw, hrun⟩⟩
      · omega
      · refine ⟨by rw [hrun]; simp [deployHead], ?_⟩
        intro hfail
        rw [hbo] at hfail
        cases hfail
      · exact ⟨by rw [hrun]; simp [deployHead],
          fun _ => ⟨by rw [hrun], by rw [hrun]; simp [deployHead]⟩⟩
      · refine ⟨by rw [hrun]; simp [deployHead], ?_⟩
        intro hfail
        rw [hbo] at hfail
        cases hfail
      · refine ⟨?_, ?_⟩
        · rcases deployFinish_cases env (deployTxnOf env price)
              (deployHead env price ++ [.bridgeInvoked, .balanceObserved b]) with
            ⟨msg', _, _, hfin⟩ | ⟨msg', _, _, hfin⟩ | ⟨g, _, hfin⟩ <;>
          · rw [hrun, hfin]
            simp [deployHead]
        · intro hfail
          rw [hbo] at hfail
          cases hfail

/-- Claim C10: once the gate has returned a reference-chain (Ethereum)
gas-price reading and compilation has succeeded, the deployment
transaction is built — before any bridge or balance wait — with exactly
that reading as its `gasPrice` (no destination-chain fee quote is
involved) and with the nonce read at build time; every later submission
carries that same `gasPrice` and nonce, only the gas limit added by
estimation. -/
theorem deploy_txn_fixed_at_build :
    ∀ env price idx, gasGate env.maxGwei env.ethGasReadings = some (price, idx) →
      env.compileOk = true →
      (∃ rest, (deploy_random_contract env).2 =
        DeployEvent.gateReturned price :: DeployEvent.compiled ::
        DeployEvent.txnBuilt (deployTxnOf env price) :: rest) ∧
      ∀ t, DeployEvent.submitted t ∈ (deploy_random_contract env).2 →
        t.gasPrice = price ∧ t.nonce = env.nonce := by
  intro env price idx hg hc
  constructor
  · rcases deploy_run_cases env price idx hg hc with
      ⟨hb, hrun⟩ | ⟨hb, ⟨e, hbo, hrun⟩ | ⟨hbo, hrun⟩ | ⟨hbo, hw, hrun⟩ |
        ⟨b, hbo, hw, hrun⟩⟩
    · rcases deployFinish_cases env (deployTxnOf env price) (deployHead env price) with
        ⟨msg', _, _, hfin⟩ | ⟨msg', _, _, hfin⟩ | ⟨g, _, hfin⟩ <;>
      · rw [hrun, hfin]
        exact ⟨_, by simp [deployHead]; try rfl⟩
    · rw [hrun]
      exact ⟨_, by simp [deployHead]; try rfl⟩
    · rw [hrun]
      exact ⟨_, by simp [deployHead]; try rfl⟩
    · rw [hrun]
      exact ⟨_, by simp [deployHead]; try rfl⟩
    · rcases deployFinish_cases env (deployTxnOf env price)
          (deployHead env price ++ [.bridgeInvoked, .balanceObserved b]) with
        ⟨msg', _, _, hfin⟩ | ⟨msg', _, _, hfin⟩ | ⟨g, _, hfin⟩ <;>
      · rw [hrun, hfin]
        exact ⟨_, by simp [deployHead]; try rfl⟩
  · intro t hmem
    rcases deploy_run_cases env price idx hg hc with
      ⟨hb, hrun⟩ | ⟨hb, ⟨e, hbo, hrun⟩ | ⟨hbo, hrun⟩ | ⟨hbo, hw, hrun⟩ |
        ⟨b, hbo, hw, hrun⟩⟩
    · rcases deployFinish_cases env (deployTxnOf env price) (deployHead env price) with
        ⟨msg', _, _, hfin⟩ | ⟨msg', _, _, hfin⟩ | ⟨g, _, hfin⟩ <;>
      · rw [hrun, hfin] at hmem
        simp [deployHead] at hmem
        try (subst hmem; exact ⟨rfl, rfl⟩)
    · rw [hrun] at hmem
      simp [deployHead] at hmem
    · rw [hrun] at hmem
      simp [deployHead] at hmem
    · rw [hrun] at hmem
      simp [deployHead] at hmem
    · rcases deployFinish_cases env (deployTxnOf env price)
          (deployHead env price ++ [.bridgeInvoked, .balanceObserved b]) with
        ⟨msg', _, _, hfin⟩ | ⟨msg', _, _, hfin⟩ | ⟨g, _, hfin⟩ <;>
      · rw [hrun, hfin] at hmem
        simp [deployHead] at hmem
        try (subst hmem; exact ⟨rfl, rfl⟩)

/-- When every account attempt returns a boolean (no exception escapes,
no wait loop sticks), the fleet run completes with the deployed tally
equal to the number of `True` returns, the failed tally the rest, and one
inter-account sleep per account except the last. -/
lemma fleetRun_all_returns :
    ∀ envs : List DeployEnv,
      (∀ e ∈ envs, ∃ rb, (deploy_random_contract e).1 = .returns rb) →
      fleetRun envs = .done (successesIn envs)
        (envs.length - successesIn envs) (envs.length - 1) := by
  intro envs
  induction envs with
  | nil => intro _; rfl
  | cons env rest ih =>
    intro h
    obtain ⟨b, hb⟩ := h env (by simp)
    have hcount : successesIn (env :: rest) =
        successesIn rest + (if b then 1 else 0) := by
      simp only [successesIn, List.countP_cons, hb]
      cases b <;> simp
    cases rest with
    | nil =>
      simp only [fleetRun]
      rw [hb]
      cases b <;> simp [successesIn, List.countP_cons, hb]
    | cons e2 rest2 =>
      have ih' := ih fun e he => h e (by simp [he])
      have hstep : fleetRun (env :: e2 :: rest2) =
          match (deploy_random_contract env).1 with
          | .raises e => .aborted e 0 0
          | .blocks => .blocked 0 0
          | .returns rb =>
            match fleetRun (e2 :: rest2) with
            | .done d f s =>
              .done (d + if rb then 1 else 0) (f + if rb then 0 else 1) (s + 1)
            | .aborted e p s => .aborted e (p + 1) (s + 1)
            | .blocked p s => .blocked (p + 1) (s + 1) := rfl
      rw [hstep, hb, ih']
      have hle : successesIn (e2 :: rest2) ≤ (e2 :: rest2).length :=
        List.countP_le_length _
      rw [hcount]
      simp only [List.length_cons]
      cases b <;> simp_all <;> omega

/-- Claim C2 (counterexample): a compile error in the first account's
attempt is NOT contained — `main` has no handler around the per-account
call, so the exception aborts the fleet run with zero accounts processed
and no final tally, even though the second account's attempt would have
succeeded.  The run does not continue to the remaining accounts. -/
theorem compile_error_aborts_fleet_run :
    fleetRun [envCompileFail, envSuccess] = .aborted "CompileError" 0 0 ∧
    (deploy_random_contract envSuccess).1 = .returns true := by
  constructor
  · decide
  · decide

/-- Claim C2 (amended): per-account errors that the attempt itself
classifies — estimation failures including insufficient funds, a failed
bridge, a missing or reverted receipt — are isolated: the attempt returns
`False`, the run continues through every account, and only the final tally
(deployed + failed = number of accounts) reflects them.  An exception that
escapes the attempt, such as a compile error, aborts the whole run. -/
theorem returned_failures_are_isolated :
    ∀ envs, (∀ e ∈ envs, ∃ rb, (deploy_random_contract e).1 = .returns rb) →
      ∃ d f, fleetRun envs = .done d f (envs.length - 1) ∧
        d + f = envs.length := by
  intro envs h
  refine ⟨successesIn envs, envs.length - successesIn envs,
    fleetRun_all_returns envs h, ?_⟩
  have hle : successesIn envs ≤ envs.length := List.countP_le_length _
  omega

/-- Witness for the amended C2: a failing account (insufficient funds)
followed by a succeeding one still completes with a full tally. -/
theorem returned_failures_are_isolated_witness :
    ∃ d f, fleetRun [envInsufficient, envSuccess] = .done d f 1 ∧ d + f = 2 := by
  have h := returned_failures_are_isolated [envInsufficient, envSuccess] (by
    intro e he
    simp at he
    rcases he with rfl | rfl
    · exact ⟨false, by decide⟩
    · exact ⟨true, by decide⟩)
  simpa using h

/-- Claim C9: for a run in which every account attempt completes with a
boolean outcome, the final tally reports deployedCount = number of
successes, failedCount = accounts − successes, and exactly `n - 1`
inter-account sleeps happen (one between consecutive accounts, never after
the last). -/
theorem fleet_tally_and_sleeps :
    ∀ envs, (∀ e ∈ envs, ∃ rb, (deploy_random_contract e).1 = .returns rb) →
      fleetRun envs = .done (successesIn envs)
        (envs.length - successesIn envs) (envs.length - 1) := by
  intro envs h
  exact fleetRun_all_returns envs h

/-- Witness for C9: 3 accounts of which 2 succeed and 1 fails with
insufficient funds give deployedCount 2, failedCount 1 and exactly 2
sleeps. -/
theorem fleet_tally_and_sleeps_witness :
    fleetRun [envSuccess, envSuccess, envInsufficient] = .done 2 1 2 := by
  have h := fleet_tally_and_sleeps [envSuccess, envSuccess, envInsufficient] (by
    intro e he
    simp at he
    rcases he with rfl | rfl
    · exact ⟨true, by decide⟩
    · exact ⟨false, by decide⟩)
  have hs : successesIn [envSuccess, envSuccess, envInsufficient] = 2 := by decide
  rw [hs] at h
  simpa using h

set_option maxRecDepth 16384 in
/-- Witness for C3: at the concrete insufficient-funds bridge run, the
attempt returns `False` after logging insufficient funds, without
signing. -/
theorem insufficient_funds_short_circuits_witness :
    (bridge_to_scroll envBridgeInsufficient).1 = .returns false ∧
    BridgeEvent.loggedInsufficientFunds ∈ (bridge_to_scroll envBridgeInsufficient).2 ∧
    BridgeEvent.signed ∉ (bridge_to_scroll envBridgeInsufficient).2 := by
  have h := insufficient_funds_short_circuits.1 envBridgeInsufficient
    "insufficient funds for transfer" rfl (by decide) (by decide)
  exact ⟨h.1, h.2.1, h.2.2.1⟩

/-- Witness for C4: the concrete bridged deploy run observed balance 9,
strictly above the pre-bridge balance 3, before estimating. -/
theorem bridge_success_requires_balance_increase_witness :
    ∃ b, DeployEvent.balanceObserved b ∈ (deploy_random_contract envBridgeWait).2 ∧
      envBridgeWait.scrollBalance < b :=
  bridge_success_requires_balance_increase.2 envBridgeWait (by decide) (by decide)

/-- Witness for C6: the funded account never invokes the bridge, and the
account with a failing bridge returns `False` without estimating. -/
theorem bridge_only_when_below_threshold_witness :
    DeployEvent.bridgeInvoked ∉ (deploy_random_contract envSuccess).2 ∧
    (deploy_random_contract envBridgeFail).1 = .returns false ∧
    DeployEvent.estimateTried ∉ (deploy_random_contract envBridgeFail).2 := by
  refine ⟨bridge_only_when_below_threshold.1 envSuccess (by decide), ?_⟩
  have h := ((bridge_only_when_below_threshold.2 envBridgeFail 20000000000 0
    (by decide) rfl).2 (by decide)).2 rfl
  exact h

set_option maxRecDepth 16384 in
/-- Witness for C7: the concrete bridge run's transaction carries value
`15 + (100 + 1)`. -/
theorem bridge_value_includes_quoted_fee_witness :
    (bridgeTxnOf envBridge).value = envBridge.amountWei + envBridge.sendFee.sum := by
  have h := bridge_value_includes_quoted_fee envBridge (bridgeTxnOf envBridge) (by decide)
  exact h.1

/-- Witness for C10: the concrete bridged deploy run builds its
transaction, with the gate's 20 gwei reading, before the bridge events. -/
theorem deploy_txn_fixed_at_build_witness :
    ∃ rest, (deploy_random_contract envBridgeWait).2 =
      DeployEvent.gateReturned 20000000000 :: DeployEvent.compiled ::
      DeployEvent.txnBuilt (deployTxnOf envBridgeWait 20000000000) :: rest :=
  (deploy_txn_fixed_at_build envBridgeWait 20000000000 0 (by decide) rfl).1

end SmartContract
